import Mathlib

/-!
Verification of the poll voting and cascading deletion core of the
VibeSphere social application.

The development embeds the database tables of the hosted persistence
service together with the handlers that operate on them: the vote handler
and the poll deletion handler of PollCard, the account deletion handler of
the Profile page, the submit handler of CreatePollForm, and the comment
deletion handler of CommentSection.  The persistence service itself lives
outside the repository; its operations (insert appends a row, delete
removes the rows matched by the filter chain, select reads rows) and its
uniqueness constraint on user votes are modelled from the specification of
the external interface.  Identifiers, which the service generates as
provider-generated strings, are modelled as natural numbers.
-/

/-- A row of the polls table: id, question, author_id and the denormalized
total_votes counter written at creation. -/
structure PollRow where
  id : Nat
  question : String
  authorId : Nat
  totalVotes : Nat
  deriving DecidableEq, Repr

/-- A row of the poll_options table: id, poll_id back-reference, text and
the persisted votes counter. -/
structure PollOptionRow where
  id : Nat
  pollId : Nat
  text : String
  votes : Nat
  deriving DecidableEq, Repr

/-- A row of the user_votes table: the (poll_id, user_id) pair and the
chosen option_id. -/
structure UserVoteRow where
  pollId : Nat
  optionId : Nat
  userId : Nat
  deriving DecidableEq, Repr

/-- A row of the comments table: attached to a post or to a poll through
the two nullable foreign keys. -/
structure CommentRow where
  id : Nat
  content : String
  authorId : Nat
  postId : Option Nat
  pollId : Option Nat
  deriving DecidableEq, Repr

/-- A row of the posts table. -/
structure PostRow where
  id : Nat
  content : String
  authorId : Nat
  deriving DecidableEq, Repr

/-- A row of the post_likes table. -/
structure PostLikeRow where
  postId : Nat
  userId : Nat
  deriving DecidableEq, Repr

/-- A row of the profiles table; the id equals the account id. -/
structure ProfileRow where
  id : Nat
  username : String
  deriving DecidableEq, Repr

/-- The state of the persistence service: the seven application tables plus
the list of authentication records, which the admin interface deletes. -/
structure DB where
  profiles : List ProfileRow
  posts : List PostRow
  polls : List PollRow
  pollOptions : List PollOptionRow
  userVotes : List UserVoteRow
  comments : List CommentRow
  postLikes : List PostLikeRow
  authUsers : List Nat
  deriving DecidableEq, Repr

/-- Failure of a persistence operation as observed by the client. -/
inductive DBError
  | uniqueViolation
  deriving DecidableEq, Repr

/-- Modelled from the spec: the persistence service enforces a uniqueness
constraint on the pair (user_votes.poll_id, user_votes.user_id), listed in
section 6 of the specification.  The constraint lives in the hosted
database, not in the repository sources, so an insert of a duplicate pair
returns an error and leaves the table unchanged; any other insert appends
the row. -/
def dbInsertUserVote (db : DB) (row : UserVoteRow) : Except DBError DB :=
  if db.userVotes.any (fun v => v.pollId == row.pollId && v.userId == row.userId) then
    Except.error DBError.uniqueViolation
  else
    Except.ok { db with userVotes := db.userVotes ++ [row] }

/-- The local component state of one PollCard: the selected option, the
hasVoted flag and the pollData copy of the option rows that the card
renders. -/
structure PollCardState where
  selectedOption : Option Nat
  hasVoted : Bool
  pollData : List PollOptionRow
  deriving DecidableEq, Repr

/-- The outcome the vote handler reports through its toasts. -/
inductive VoteOutcome
  | notAuthenticated
  | ignoredAlreadyVoted
  | voteError
  | voteRecorded
  deriving DecidableEq, Repr

/-- The handleVote handler of PollCard.  It requires a session, returns
early when the local hasVoted flag is set, inserts a user_votes row, and on
success marks the card as voted and increments the tally of the chosen
option in the local component state only: the handler issues no update of
the persisted poll_options.votes column. -/
def handleVote (user : Option Nat) (pollId : Nat) (optionId : Nat)
    (st : PollCardState) (db : DB) : PollCardState × DB × VoteOutcome :=
  match user with
  | none => (st, db, VoteOutcome.notAuthenticated)
  | some uid =>
    if st.hasVoted then (st, db, VoteOutcome.ignoredAlreadyVoted)
    else
      match dbInsertUserVote db { pollId := pollId, optionId := optionId, userId := uid } with
      | Except.error _ => (st, db, VoteOutcome.voteError)
      | Except.ok db1 =>
        ({ selectedOption := some optionId
           hasVoted := true
           pollData := st.pollData.map (fun o =>
             if o.id == optionId then { o with votes := o.votes + 1 } else o) },
         db1, VoteOutcome.voteRecorded)

/-- A read of one persisted option row, as the Profile page fetch performs
it: the votes column of the poll_options row with the given id. -/
def readOptionVotes (db : DB) (optionId : Nat) : Option Nat :=
  (db.pollOptions.find? (fun o => o.id == optionId)).map (fun o => o.votes)

/-- The sum of the persisted votes counters of the options of one poll. -/
def persistedPollVoteSum (db : DB) (pollId : Nat) : Nat :=
  ((db.pollOptions.filter (fun o => o.pollId == pollId)).map (fun o => o.votes)).sum

/-- The number of user_votes rows recorded for one poll. -/
def userVoteCount (db : DB) (pollId : Nat) : Nat :=
  (db.userVotes.filter (fun v => v.pollId == pollId)).length

/-- A freshly created two-option poll by author 7, before any vote. -/
def dbFreshPoll : DB where
  profiles := [{ id := 7, username := "author" }]
  posts := []
  polls := [{ id := 1, question := "best colour", authorId := 7, totalVotes := 0 }]
  pollOptions := [{ id := 10, pollId := 1, text := "red", votes := 0 },
                  { id := 11, pollId := 1, text := "blue", votes := 0 }]
  userVotes := []
  comments := []
  postLikes := []
  authUsers := [7, 5]

/-- C1: on the fresh poll, a successful vote by user 5 for option 10 does
insert exactly the one user_votes row, but the persisted votes counter of
option 10 stays 0, so a subsequent read of the options of poll 1 does not
return a count one higher than before the vote: the handler increments the
tally only in the local component state. -/
theorem castVote_records_row_but_not_persisted_counter :
    (handleVote (some 5) 1 10
        { selectedOption := none, hasVoted := false, pollData := dbFreshPoll.pollOptions }
        dbFreshPoll).2.2 = VoteOutcome.voteRecorded ∧
    (handleVote (some 5) 1 10
        { selectedOption := none, hasVoted := false, pollData := dbFreshPoll.pollOptions }
        dbFreshPoll).2.1.userVotes = [{ pollId := 1, optionId := 10, userId := 5 }] ∧
    readOptionVotes
        (handleVote (some 5) 1 10
          { selectedOption := none, hasVoted := false, pollData := dbFreshPoll.pollOptions }
          dbFreshPoll).2.1 10 = some 0 := by
  decide

/-- A fresh two-option poll with id 2 by author 8, before any vote. -/
def dbFreshPollTwo : DB where
  profiles := [{ id := 8, username := "writer" }]
  posts := []
  polls := [{ id := 2, question := "best season", authorId := 8, totalVotes := 0 }]
  pollOptions := [{ id := 20, pollId := 2, text := "summer", votes := 0 },
                  { id := 21, pollId := 2, text := "winter", votes := 0 }]
  userVotes := []
  comments := []
  postLikes := []
  authUsers := [8, 6]

/-- C2: after one valid vote on the fresh poll 2, the sum of the persisted
votes counters of its options is 0 while the number of user_votes rows for
the poll is 1, so the stated invariant fails on the code after any
non-empty sequence of valid votes. -/
theorem vote_sequence_breaks_sum_invariant :
    (handleVote (some 6) 2 20
        { selectedOption := none, hasVoted := false, pollData := dbFreshPollTwo.pollOptions }
        dbFreshPollTwo).2.2 = VoteOutcome.voteRecorded ∧
    persistedPollVoteSum
        (handleVote (some 6) 2 20
          { selectedOption := none, hasVoted := false, pollData := dbFreshPollTwo.pollOptions }
          dbFreshPollTwo).2.1 2 = 0 ∧
    userVoteCount
        (handleVote (some 6) 2 20
          { selectedOption := none, hasVoted := false, pollData := dbFreshPollTwo.pollOptions }
          dbFreshPollTwo).2.1 2 = 1 := by
  decide

/-- C3: when a user_votes row for the pair (pollId, uid) already exists,
a further vote by uid on the poll does not report success, leaves the
database unchanged, and leaves the local tallies unchanged, whatever the
local hasVoted flag says: a stale or bypassed flag still runs into the
uniqueness constraint of the data layer. -/
theorem second_vote_rejected_and_state_unchanged
    (uid pollId optionId : Nat) (st : PollCardState) (db : DB)
    (h : ∃ v ∈ db.userVotes, v.pollId = pollId ∧ v.userId = uid) :
    (handleVote (some uid) pollId optionId st db).2.2 ≠ VoteOutcome.voteRecorded ∧
    (handleVote (some uid) pollId optionId st db).2.1 = db ∧
    (handleVote (some uid) pollId optionId st db).1.pollData = st.pollData := by
  obtain ⟨v, hv, hp, hu⟩ := h
  have hany : db.userVotes.any (fun w => w.pollId == pollId && w.userId == uid) = true := by
    rw [List.any_eq_true]
    exact ⟨v, hv, by simp [hp, hu]⟩
  by_cases hvf : st.hasVoted
  · simp [handleVote, hvf]
  · simp [handleVote, hvf, dbInsertUserVote, hany]

/-- A database in which user 5 has already voted for option 10 on poll 1. -/
def dbVoted : DB where
  profiles := [{ id := 7, username := "author" }]
  posts := []
  polls := [{ id := 1, question := "best colour", authorId := 7, totalVotes := 0 }]
  pollOptions := [{ id := 10, pollId := 1, text := "red", votes := 0 },
                  { id := 11, pollId := 1, text := "blue", votes := 0 }]
  userVotes := [{ pollId := 1, optionId := 10, userId := 5 }]
  comments := []
  postLikes := []
  authUsers := [7, 5]

/-- Witness for C3: on dbVoted, a second vote by user 5, this time for
option 11 and with a stale hasVoted flag, is rejected and changes
nothing. -/
theorem second_vote_rejected_and_state_unchanged_witness :
    (handleVote (some 5) 1 11
        { selectedOption := none, hasVoted := false, pollData := dbVoted.pollOptions }
        dbVoted).2.2 ≠ VoteOutcome.voteRecorded ∧
    (handleVote (some 5) 1 11
        { selectedOption := none, hasVoted := false, pollData := dbVoted.pollOptions }
        dbVoted).2.1 = dbVoted :=
  ⟨(second_vote_rejected_and_state_unchanged 5 1 11
      { selectedOption := none, hasVoted := false, pollData := dbVoted.pollOptions }
      dbVoted ⟨{ pollId := 1, optionId := 10, userId := 5 }, by decide, rfl, rfl⟩).1,
   (second_vote_rejected_and_state_unchanged 5 1 11
      { selectedOption := none, hasVoted := false, pollData := dbVoted.pollOptions }
      dbVoted ⟨{ pollId := 1, optionId := 10, userId := 5 }, by decide, rfl, rfl⟩).2.1⟩

/-- The step names of the poll deletion sequence of PollCard. -/
inductive PollDelStep
  | comments
  | votes
  | options
  | poll
  deriving DecidableEq, Repr

/-- Delete all comments rows whose poll_id equals the target poll id. -/
def dbDeleteCommentsByPoll (db : DB) (pid : Nat) : DB :=
  { db with comments := db.comments.filter (fun c => !(c.pollId == some pid)) }

/-- Delete all user_votes rows whose poll_id equals the target poll id. -/
def dbDeleteVotesByPoll (db : DB) (pid : Nat) : DB :=
  { db with userVotes := db.userVotes.filter (fun v => !(v.pollId == pid)) }

/-- Delete all poll_options rows whose poll_id equals the target poll id. -/
def dbDeleteOptionsByPoll (db : DB) (pid : Nat) : DB :=
  { db with pollOptions := db.pollOptions.filter (fun o => !(o.pollId == pid)) }

/-- Delete the polls row with the target id. -/
def dbDeletePollRow (db : DB) (pid : Nat) : DB :=
  { db with polls := db.polls.filter (fun p => !(p.id == pid)) }

/-- The fixed order of the four delete steps in the source of the
handleDelete handler of PollCard. -/
def pollDeletionOrder : List PollDelStep :=
  [PollDelStep.comments, PollDelStep.votes, PollDelStep.options, PollDelStep.poll]

/-- The handleDelete handler of PollCard.  After the authorization check it
awaits the four deletes one after the other, checking the error of each and
throwing out of the sequence on the first failure.  The faults argument
injects a failure of a given step: a failing step leaves the state
unchanged and the thrown error ends the sequence.  The handler returns the
resulting database, the list of steps that were started, and whether the
whole sequence succeeded. -/
def handleDelete (user : Option Nat) (poll : PollRow) (faults : PollDelStep → Bool)
    (db : DB) : DB × List PollDelStep × Bool :=
  match user with
  | none => (db, [], false)
  | some uid =>
    if uid != poll.authorId then (db, [], false)
    else if faults PollDelStep.comments then (db, [PollDelStep.comments], false)
    else
      let db1 := dbDeleteCommentsByPoll db poll.id
      if faults PollDelStep.votes then
        (db1, [PollDelStep.comments, PollDelStep.votes], false)
      else
        let db2 := dbDeleteVotesByPoll db1 poll.id
        if faults PollDelStep.options then
          (db2, [PollDelStep.comments, PollDelStep.votes, PollDelStep.options], false)
        else
          let db3 := dbDeleteOptionsByPoll db2 poll.id
          if faults PollDelStep.poll then
            (db3, pollDeletionOrder, false)
          else
            (dbDeletePollRow db3 poll.id, pollDeletionOrder, true)

/-- C4: when the author runs poll deletion, the fault-free run starts
exactly the four delete steps in the order comments, votes, options, poll,
and the resulting database is the sequential composition of the four
deletes in that order; and under any injected faults the started steps
always form a prefix of that order, since a failing step ends the sequence
before any later step begins. -/
theorem poll_deletion_steps_in_order (db : DB) (poll : PollRow)
    (faults : PollDelStep → Bool) :
    (handleDelete (some poll.authorId) poll (fun _ => false) db).2.1 = pollDeletionOrder ∧
    (handleDelete (some poll.authorId) poll (fun _ => false) db).1 =
      dbDeletePollRow (dbDeleteOptionsByPoll (dbDeleteVotesByPoll
        (dbDeleteCommentsByPoll db poll.id) poll.id) poll.id) poll.id ∧
    (handleDelete (some poll.authorId) poll (fun _ => false) db).2.2 = true ∧
    (∃ n, (handleDelete (some poll.authorId) poll faults db).2.1 =
      pollDeletionOrder.take n) := by
  refine ⟨by simp [handleDelete], by simp [handleDelete], by simp [handleDelete], ?_⟩
  simp only [handleDelete]
  cases hc : faults PollDelStep.comments
  · cases hv : faults PollDelStep.votes
    · cases ho : faults PollDelStep.options
      · cases hp : faults PollDelStep.poll
        · exact ⟨4, by simp [pollDeletionOrder]⟩
        · exact ⟨4, by simp [pollDeletionOrder]⟩
      · exact ⟨3, by simp [pollDeletionOrder]⟩
    · exact ⟨2, by simp [pollDeletionOrder]⟩
  · exact ⟨1, by simp [pollDeletionOrder]⟩

/-- Apply one delete step of the poll deletion sequence to the database. -/
def applyPollStep (db : DB) (pid : Nat) : PollDelStep → DB
  | PollDelStep.comments => dbDeleteCommentsByPoll db pid
  | PollDelStep.votes => dbDeleteVotesByPoll db pid
  | PollDelStep.options => dbDeleteOptionsByPoll db pid
  | PollDelStep.poll => dbDeletePollRow db pid

/-- Apply a list of poll deletion steps from left to right. -/
def applyPollSteps (steps : List PollDelStep) (db : DB) (pid : Nat) : DB :=
  steps.foldl (fun d s => applyPollStep d pid s) db

/-- The fault-free poll deletion sequence as a function on the database. -/
def pollDeletionRun (db : DB) (pid : Nat) : DB :=
  dbDeletePollRow (dbDeleteOptionsByPoll (dbDeleteVotesByPoll
    (dbDeleteCommentsByPoll db pid) pid) pid) pid

/-- No comments, user_votes or poll_options row references the poll id and
no polls row carries it. -/
def noPollRefs (db : DB) (pid : Nat) : Prop :=
  (∀ c ∈ db.comments, c.pollId ≠ some pid) ∧
  (∀ v ∈ db.userVotes, v.pollId ≠ pid) ∧
  (∀ o ∈ db.pollOptions, o.pollId ≠ pid) ∧
  (∀ p ∈ db.polls, p.id ≠ pid)

/-- C7: poll deletion is idempotent.  A fault-free run on any state,
including a state left behind by a complete or interrupted earlier run, ends
with no comments, user_votes or poll_options row referencing the poll and
no polls row with its id; rerunning the whole sequence after any prefix of
it reaches exactly the same state as a single full run; and a second full
run through the handler reports success with every delete-by-poll-id step
a no-op on the already empty row sets. -/
theorem poll_deletion_idempotent (db : DB) (poll : PollRow) (n : Nat) :
    noPollRefs (pollDeletionRun db poll.id) poll.id ∧
    pollDeletionRun (applyPollSteps (pollDeletionOrder.take n) db poll.id) poll.id =
      pollDeletionRun db poll.id ∧
    (handleDelete (some poll.authorId) poll (fun _ => false)
      (pollDeletionRun db poll.id)).2.2 = true ∧
    (handleDelete (some poll.authorId) poll (fun _ => false)
      (pollDeletionRun db poll.id)).1 = pollDeletionRun db poll.id := by
  have hrun : ∀ d : DB,
      (handleDelete (some poll.authorId) poll (fun _ => false) d).1 =
        pollDeletionRun d poll.id := by
    intro d
    simp [handleDelete, pollDeletionRun]
  have hfilter : ∀ (α : Type) (p : α → Bool) (l : List α),
      (l.filter p).filter p = l.filter p := by
    intro α p l
    simp [List.filter_filter]
  refine ⟨?_, ?_, by simp [handleDelete], ?_⟩
  · refine ⟨?_, ?_, ?_, ?_⟩ <;>
      · intro x hx
        simp only [pollDeletionRun, dbDeleteCommentsByPoll, dbDeleteVotesByPoll,
          dbDeleteOptionsByPoll, dbDeletePollRow, List.mem_filter] at hx
        simpa using hx.2
  · by_cases hn : pollDeletionOrder.length ≤ n
    · rw [List.take_of_length_le hn]
      simp [applyPollSteps, pollDeletionOrder, applyPollStep, pollDeletionRun,
        dbDeleteCommentsByPoll, dbDeleteVotesByPoll, dbDeleteOptionsByPoll,
        dbDeletePollRow, hfilter]
    · have hn4 : n < 4 := by
        simpa [pollDeletionOrder] using Nat.lt_of_not_le hn
      interval_cases n <;>
        simp [applyPollSteps, pollDeletionOrder, applyPollStep, pollDeletionRun,
          dbDeleteCommentsByPoll, dbDeleteVotesByPoll, dbDeleteOptionsByPoll,
          dbDeletePollRow, hfilter]
  · rw [hrun]
    have h4 : pollDeletionRun (applyPollSteps (pollDeletionOrder.take 4) db poll.id)
        poll.id = pollDeletionRun db poll.id := by
      simp [applyPollSteps, pollDeletionOrder, applyPollStep, pollDeletionRun,
        dbDeleteCommentsByPoll, dbDeleteVotesByPoll, dbDeleteOptionsByPoll,
        dbDeletePollRow, hfilter]
    simpa [applyPollSteps, pollDeletionOrder, applyPollStep, pollDeletionRun] using h4

/-- The operations of the account deletion sequence of the Profile page, in
source order: each supabase call of the handler gets one step name. -/
inductive AccStep
  | votesByUser
  | likesByUser
  | selectPolls
  | optionsInPolls
  | votesInPolls
  | commentsInPolls
  | pollsByUser
  | selectPosts
  | commentsInPosts
  | likesInPosts
  | postsByUser
  | commentsByUser
  | profileRow
  | authRecord
  deriving DecidableEq, Repr

/-- Delete the user_votes rows cast by the user. -/
def delVotesByUser (db : DB) (u : Nat) : DB :=
  { db with userVotes := db.userVotes.filter (fun v => !(v.userId == u)) }

/-- Delete the post_likes rows cast by the user. -/
def delLikesByUser (db : DB) (u : Nat) : DB :=
  { db with postLikes := db.postLikes.filter (fun l => !(l.userId == u)) }

/-- The select of the ids of the polls authored by the user. -/
def selectPollIds (db : DB) (u : Nat) : List Nat :=
  (db.polls.filter (fun p => p.authorId == u)).map (fun p => p.id)

/-- Delete the poll_options rows whose poll_id is in the id set. -/
def delOptionsInPolls (db : DB) (pids : List Nat) : DB :=
  { db with pollOptions := db.pollOptions.filter (fun o => !(pids.contains o.pollId)) }

/-- Delete the user_votes rows whose poll_id is in the id set. -/
def delVotesInPolls (db : DB) (pids : List Nat) : DB :=
  { db with userVotes := db.userVotes.filter (fun v => !(pids.contains v.pollId)) }

/-- Delete the comments rows whose poll_id is in the id set. -/
def delCommentsInPolls (db : DB) (pids : List Nat) : DB :=
  { db with comments :=
      db.comments.filter (fun c => !(pids.any (fun pid => c.pollId == some pid))) }

/-- Delete the polls rows authored by the user. -/
def delPollsByUser (db : DB) (u : Nat) : DB :=
  { db with polls := db.polls.filter (fun p => !(p.authorId == u)) }

/-- The select of the ids of the posts authored by the user. -/
def selectPostIds (db : DB) (u : Nat) : List Nat :=
  (db.posts.filter (fun p => p.authorId == u)).map (fun p => p.id)

/-- Delete the comments rows whose post_id is in the id set. -/
def delCommentsInPosts (db : DB) (pids : List Nat) : DB :=
  { db with comments :=
      db.comments.filter (fun c => !(pids.any (fun pid => c.postId == some pid))) }

/-- Delete the post_likes rows whose post_id is in the id set. -/
def delLikesInPosts (db : DB) (pids : List Nat) : DB :=
  { db with postLikes := db.postLikes.filter (fun l => !(pids.contains l.postId)) }

/-- Delete the posts rows authored by the user. -/
def delPostsByUser (db : DB) (u : Nat) : DB :=
  { db with posts := db.posts.filter (fun p => !(p.authorId == u)) }

/-- Delete the comments rows authored by the user. -/
def delCommentsByUser (db : DB) (u : Nat) : DB :=
  { db with comments := db.comments.filter (fun c => !(c.authorId == u)) }

/-- Delete the profiles row of the user. -/
def delProfileRow (db : DB) (u : Nat) : DB :=
  { db with profiles := db.profiles.filter (fun p => !(p.id == u)) }

/-- Delete the authentication record of the user through the admin
interface. -/
def delAuthUser (db : DB) (u : Nat) : DB :=
  { db with authUsers := db.authUsers.filter (fun a => !(a == u)) }

/-- The toLowerCase call of the handler, modelled character by character;
the confirmation phrase is plain ASCII, where the JavaScript function and
the per-character lowering agree. -/
def jsToLower (s : String) : String := String.mk (s.data.map Char.toLower)

/-- The handleDeleteAccount handler of the Profile page.  After the
confirmation-phrase check it awaits each persistence call in source order.
The faults argument injects a failure of a given call: a failing delete
leaves the state unchanged and a failing select returns no data.  The
handler checks the error of the final authentication-record delete only:
the results of every earlier await are discarded, so the sequence runs on
past them.  Dependent deletes are issued only when the selected id set is
non-empty, exactly as the length guards in the source do.  The handler
returns the database, the list of started steps, and whether it reported
success. -/
def handleDeleteAccount (user : Option Nat) (confirmText : String)
    (faults : AccStep → Bool) (db : DB) : DB × List AccStep × Bool :=
  match user with
  | none => (db, [], false)
  | some u =>
    if jsToLower confirmText != "delete my account" then (db, [], false)
    else
      let db1 := if faults AccStep.votesByUser then db else delVotesByUser db u
      let db2 := if faults AccStep.likesByUser then db1 else delLikesByUser db1 u
      let pollsData : Option (List Nat) :=
        if faults AccStep.selectPolls then none else some (selectPollIds db2 u)
      let pollTrace : List AccStep :=
        match pollsData with
        | none => []
        | some pids =>
          if 0 < pids.length then
            [AccStep.optionsInPolls, AccStep.votesInPolls, AccStep.commentsInPolls]
          else []
      let db3 :=
        match pollsData with
        | none => db2
        | some pids =>
          if 0 < pids.length then
            let a := if faults AccStep.optionsInPolls then db2 else delOptionsInPolls db2 pids
            let b := if faults AccStep.votesInPolls then a else delVotesInPolls a pids
            if faults AccStep.commentsInPolls then b else delCommentsInPolls b pids
          else db2
      let db4 := if faults AccStep.pollsByUser then db3 else delPollsByUser db3 u
      let postsData : Option (List Nat) :=
        if faults AccStep.selectPosts then none else some (selectPostIds db4 u)
      let postTrace : List AccStep :=
        match postsData with
        | none => []
        | some pids =>
          if 0 < pids.length then [AccStep.commentsInPosts, AccStep.likesInPosts] else []
      let db5 :=
        match postsData with
        | none => db4
        | some pids =>
          if 0 < pids.length then
            let a := if faults AccStep.commentsInPosts then db4 else delCommentsInPosts db4 pids
            if faults AccStep.likesInPosts then a else delLikesInPosts a pids
          else db4
      let db6 := if faults AccStep.postsByUser then db5 else delPostsByUser db5 u
      let db7 := if faults AccStep.commentsByUser then db6 else delCommentsByUser db6 u
      let db8 := if faults AccStep.profileRow then db7 else delProfileRow db7 u
      let trace := [AccStep.votesByUser, AccStep.likesByUser, AccStep.selectPolls]
        ++ pollTrace ++ [AccStep.pollsByUser, AccStep.selectPosts] ++ postTrace
        ++ [AccStep.postsByUser, AccStep.commentsByUser, AccStep.profileRow,
            AccStep.authRecord]
      if faults AccStep.authRecord then (db8, trace, false)
      else (delAuthUser db8 u, trace, true)

/-- A database for user 1 with a poll, a post, a vote, a like, comments and
both profiles, shared by the account deletion theorems. -/
def dbAccount : DB where
  profiles := [{ id := 1, username := "one" }, { id := 2, username := "two" }]
  posts := [{ id := 30, content := "hello", authorId := 1 }]
  polls := [{ id := 40, question := "pick", authorId := 1, totalVotes := 0 }]
  pollOptions := [{ id := 50, pollId := 40, text := "a", votes := 0 },
                  { id := 51, pollId := 40, text := "b", votes := 0 }]
  userVotes := [{ pollId := 40, optionId := 50, userId := 2 },
                { pollId := 99, optionId := 90, userId := 1 }]
  comments := [{ id := 60, content := "nice", authorId := 2, postId := none, pollId := some 40 }]
  postLikes := [{ postId := 30, userId := 2 }]
  authUsers := [1, 2]

/-- The fault function that fails the first account deletion step only. -/
def failVotesStep : AccStep → Bool := fun s => decide (s = AccStep.votesByUser)

/-- C5 fails on the code: when the very first deletion step of the account
deletion sequence fails, the sequence does not abort and no failure is
surfaced.  On dbAccount with the user_votes delete failing, the handler
still runs the later steps (the polls and the authentication record of
user 1 are gone at the end), reports success, and the vote user 1 cast on
poll 99 survives as a leftover of the silently failed step. -/
theorem account_deletion_step_failure_not_aborting :
    (handleDeleteAccount (some 1) "delete my account" failVotesStep dbAccount).2.2 = true ∧
    (handleDeleteAccount (some 1) "delete my account" failVotesStep dbAccount).1.userVotes
      = [{ pollId := 99, optionId := 90, userId := 1 }] ∧
    (handleDeleteAccount (some 1) "delete my account" failVotesStep dbAccount).1.polls = [] ∧
    (handleDeleteAccount (some 1) "delete my account" failVotesStep dbAccount).1.authUsers
      = [2] := by
  decide

/-- The poll-dependents phase of account deletion: with the selected poll
id set, delete dependent options, votes and comments when the set is
non-empty. -/
def pollPhase (db : DB) (u : Nat) : DB :=
  if 0 < (selectPollIds db u).length then
    delCommentsInPolls (delVotesInPolls
      (delOptionsInPolls db (selectPollIds db u)) (selectPollIds db u)) (selectPollIds db u)
  else db

/-- The post-dependents phase of account deletion: with the selected post
id set, delete dependent comments and likes when the set is non-empty. -/
def postPhase (db : DB) (u : Nat) : DB :=
  if 0 < (selectPostIds db u).length then
    delLikesInPosts (delCommentsInPosts db (selectPostIds db u)) (selectPostIds db u)
  else db

theorem pollPhase_posts (db : DB) (u : Nat) : (pollPhase db u).posts = db.posts := by
  unfold pollPhase
  split <;> rfl

theorem pollPhase_polls (db : DB) (u : Nat) : (pollPhase db u).polls = db.polls := by
  unfold pollPhase
  split <;> rfl

theorem postPhase_polls (db : DB) (u : Nat) : (postPhase db u).polls = db.polls := by
  unfold postPhase
  split <;> rfl

theorem postPhase_pollOptions (db : DB) (u : Nat) :
    (postPhase db u).pollOptions = db.pollOptions := by
  unfold postPhase
  split <;> rfl

theorem postPhase_userVotes (db : DB) (u : Nat) :
    (postPhase db u).userVotes = db.userVotes := by
  unfold postPhase
  split <;> rfl

theorem selectPostIds_eq_of_posts_eq (a b : DB) (u : Nat) (h : a.posts = b.posts) :
    selectPostIds a u = selectPostIds b u := by
  unfold selectPostIds
  rw [h]

theorem selectPollIds_nil_of_not_pos (db : DB) (u : Nat)
    (h : ¬ 0 < (selectPollIds db u).length) : selectPollIds db u = [] := by
  cases hsel : selectPollIds db u with
  | nil => rfl
  | cons a l => rw [hsel] at h; simp at h

theorem selectPostIds_nil_of_not_pos (db : DB) (u : Nat)
    (h : ¬ 0 < (selectPostIds db u).length) : selectPostIds db u = [] := by
  cases hsel : selectPostIds db u with
  | nil => rfl
  | cons a l => rw [hsel] at h; simp at h

theorem mem_pollPhase_pollOptions (db : DB) (u : Nat) (o : PollOptionRow)
    (h : o ∈ (pollPhase db u).pollOptions) :
    o ∈ db.pollOptions ∧ o.pollId ∉ selectPollIds db u := by
  unfold pollPhase at h
  by_cases hc : 0 < (selectPollIds db u).length
  · rw [if_pos hc] at h
    simp only [delCommentsInPolls, delVotesInPolls, delOptionsInPolls,
      List.mem_filter] at h
    refine ⟨h.1, ?_⟩
    simpa using h.2
  · rw [if_neg hc] at h
    rw [selectPollIds_nil_of_not_pos db u hc]
    exact ⟨h, by simp⟩

theorem mem_pollPhase_userVotes (db : DB) (u : Nat) (v : UserVoteRow)
    (h : v ∈ (pollPhase db u).userVotes) :
    v ∈ db.userVotes ∧ v.pollId ∉ selectPollIds db u := by
  unfold pollPhase at h
  by_cases hc : 0 < (selectPollIds db u).length
  · rw [if_pos hc] at h
    simp only [delCommentsInPolls, delVotesInPolls, delOptionsInPolls,
      List.mem_filter] at h
    refine ⟨h.1, ?_⟩
    simpa using h.2
  · rw [if_neg hc] at h
    rw [selectPollIds_nil_of_not_pos db u hc]
    exact ⟨h, by simp⟩

theorem mem_pollPhase_comments (db : DB) (u : Nat) (c : CommentRow)
    (h : c ∈ (pollPhase db u).comments) :
    c ∈ db.comments ∧ ∀ pid ∈ selectPollIds db u, c.pollId ≠ some pid := by
  unfold pollPhase at h
  by_cases hc : 0 < (selectPollIds db u).length
  · rw [if_pos hc] at h
    simp only [delCommentsInPolls, delVotesInPolls, delOptionsInPolls,
      List.mem_filter] at h
    refine ⟨h.1, ?_⟩
    intro pid hpid
    have := h.2
    simp only [Bool.not_eq_true', List.any_eq_false] at this
    simpa using this pid hpid
  · rw [if_neg hc] at h
    rw [selectPollIds_nil_of_not_pos db u hc]
    exact ⟨h, by simp⟩

theorem mem_postPhase_comments (db : DB) (u : Nat) (c : CommentRow)
    (h : c ∈ (postPhase db u).comments) :
    c ∈ db.comments ∧ ∀ pid ∈ selectPostIds db u, c.postId ≠ some pid := by
  unfold postPhase at h
  by_cases hc : 0 < (selectPostIds db u).length
  · rw [if_pos hc] at h
    simp only [delLikesInPosts, delCommentsInPosts, List.mem_filter] at h
    refine ⟨h.1, ?_⟩
    intro pid hpid
    have := h.2
    simp only [Bool.not_eq_true', List.any_eq_false] at this
    simpa using this pid hpid
  · rw [if_neg hc] at h
    rw [selectPostIds_nil_of_not_pos db u hc]
    exact ⟨h, by simp⟩

/-- C5 amended: the account deletion sequence never aborts early.  With the
session and the confirmation phrase in place, the authentication-record
step is always reached whatever faults the earlier steps hit, and the
handler reports failure exactly when that final step fails: the results of
all earlier deletes and selects are discarded unchecked. -/
theorem account_deletion_failure_checked_only_at_auth_step (db : DB) (u : Nat)
    (faults : AccStep → Bool) :
    (handleDeleteAccount (some u) "delete my account" faults db).2.2
      = !(faults AccStep.authRecord) ∧
    AccStep.authRecord ∈ (handleDeleteAccount (some u) "delete my account" faults db).2.1 := by
  have hconf : (jsToLower "delete my account" != "delete my account") = false := by decide
  cases h : faults AccStep.authRecord <;>
    simp [handleDeleteAccount, hconf, h]

/-- The fault-free behaviour of the persistence service during account
deletion: every call succeeds. -/
def noAccFaults : AccStep → Bool := fun _ => false

/-- The database left behind by a successful fault-free account deletion. -/
def accountDeletionRun (db : DB) (u : Nat) : DB :=
  (handleDeleteAccount (some u) "delete my account" noAccFaults db).1

/-- The fault-free account deletion run decomposes into the sequential
composition of its steps with the two dependent phases in the middle. -/
theorem accountDeletionRun_eq (db : DB) (u : Nat) :
    accountDeletionRun db u =
      delAuthUser (delProfileRow (delCommentsByUser (delPostsByUser
        (postPhase (delPollsByUser (pollPhase (delLikesByUser (delVotesByUser db u) u) u) u)
          u) u) u) u) u := rfl

/-- C6: a successful fault-free account deletion for user u reports
success and leaves no posts, polls, poll_options, user_votes, comments or
profiles row referencing u, whether authored by u, cast by u, or dependent
on a poll or post that u authored, and removes the authentication record
of u. -/
theorem account_deletion_no_user_row_remains (db : DB) (u : Nat) :
    (handleDeleteAccount (some u) "delete my account" noAccFaults db).2.2 = true ∧
    (∀ p ∈ (accountDeletionRun db u).posts, p.authorId ≠ u) ∧
    (∀ p ∈ (accountDeletionRun db u).polls, p.authorId ≠ u) ∧
    (∀ o ∈ (accountDeletionRun db u).pollOptions, o.pollId ∉ selectPollIds db u) ∧
    (∀ v ∈ (accountDeletionRun db u).userVotes,
      v.userId ≠ u ∧ v.pollId ∉ selectPollIds db u) ∧
    (∀ c ∈ (accountDeletionRun db u).comments,
      c.authorId ≠ u ∧ (∀ pid ∈ selectPollIds db u, c.pollId ≠ some pid) ∧
      (∀ pid ∈ selectPostIds db u, c.postId ≠ some pid)) ∧
    (∀ pr ∈ (accountDeletionRun db u).profiles, pr.id ≠ u) ∧
    u ∉ (accountDeletionRun db u).authUsers := by
  refine ⟨rfl, ?_, ?_, ?_, ?_, ?_, ?_, ?_⟩
  · intro p hp
    rw [accountDeletionRun_eq] at hp
    simp only [delAuthUser, delProfileRow, delCommentsByUser, delPostsByUser,
      List.mem_filter] at hp
    simpa using hp.2
  · intro p hp
    rw [accountDeletionRun_eq] at hp
    simp only [delAuthUser, delProfileRow, delCommentsByUser, delPostsByUser] at hp
    rw [postPhase_polls] at hp
    simp only [delPollsByUser, List.mem_filter] at hp
    simpa using hp.2
  · intro o ho
    rw [accountDeletionRun_eq] at ho
    simp only [delAuthUser, delProfileRow, delCommentsByUser, delPostsByUser,
      delPollsByUser] at ho
    rw [postPhase_pollOptions] at ho
    exact (mem_pollPhase_pollOptions _ u o ho).2
  · intro v hv
    rw [accountDeletionRun_eq] at hv
    simp only [delAuthUser, delProfileRow, delCommentsByUser, delPostsByUser,
      delPollsByUser] at hv
    rw [postPhase_userVotes] at hv
    have h2 := mem_pollPhase_userVotes _ u v hv
    refine ⟨?_, h2.2⟩
    have h3 := h2.1
    simp only [delLikesByUser, delVotesByUser, List.mem_filter] at h3
    simpa using h3.2
  · intro c hc
    rw [accountDeletionRun_eq] at hc
    simp only [delAuthUser, delProfileRow, delCommentsByUser, List.mem_filter] at hc
    obtain ⟨hc1, hauth⟩ := hc
    simp only [delPostsByUser] at hc1
    have hpost := mem_postPhase_comments _ u c hc1
    have hpoll := mem_pollPhase_comments _ u c (by
      have h4 := hpost.1
      simpa [delPollsByUser] using h4)
    have hW : selectPostIds
        (delPollsByUser (pollPhase (delLikesByUser (delVotesByUser db u) u) u) u) u
        = selectPostIds db u := by
      apply selectPostIds_eq_of_posts_eq
      show (pollPhase (delLikesByUser (delVotesByUser db u) u) u).posts = db.posts
      rw [pollPhase_posts]
      rfl
    refine ⟨by simpa using hauth, hpoll.2, ?_⟩
    intro pid hpid
    apply hpost.2 pid
    rw [hW]
    exact hpid
  · intro pr hpr
    rw [accountDeletionRun_eq] at hpr
    simp only [delAuthUser, delProfileRow, List.mem_filter] at hpr
    simpa using hpr.2
  · intro hu
    rw [accountDeletionRun_eq] at hu
    simp only [delAuthUser, List.mem_filter] at hu
    simpa using hu.2

/-- The Math.round call of PollCard on the non-negative rationals the
percentage computation produces: the floor of the argument plus one
half. -/
def jsMathRound (x : ℚ) : ℤ := Int.floor (x + 1 / 2)

/-- The reduce over the local pollData with which PollCard computes the
total vote count. -/
def sumVotes (opts : List PollOptionRow) : Nat :=
  opts.foldl (fun s o => s + o.votes) 0

/-- The percentage PollCard computes for one option: Math.round of votes
over totalVotes times 100 when the total is positive, else 0. -/
def optionPercentage (votes total : Nat) : ℤ :=
  if 0 < total then jsMathRound ((votes : ℚ) / (total : ℚ) * 100) else 0

/-- The list of percentages PollCard renders: one map over the options,
each percentage computed independently from that option and the shared
total, with no later adjustment pass. -/
def renderedPercentages (opts : List PollOptionRow) : List ℤ :=
  opts.map (fun o => optionPercentage o.votes (sumVotes opts))

/-- Modelled from the spec: percentage display is round of optionVotes over
totalVotes times 100 when totalVotes is positive, else 0 for all options,
with round the standard half-up rounding of the rationals. -/
def specPercentage (votes total : Nat) : ℤ :=
  if 0 < total then round ((votes : ℚ) / (total : ℚ) * 100) else 0

/-- A three-option poll with one vote each: every option rounds to 33
independently, so the rendered percentages add up to 99, not 100. -/
def threeWayTie : List PollOptionRow :=
  [{ id := 1, pollId := 9, text := "a", votes := 1 },
   { id := 2, pollId := 9, text := "b", votes := 1 },
   { id := 3, pollId := 9, text := "c", votes := 1 }]

/-- C8: for every option list the percentages PollCard renders agree with
the specified rounding, option by option against the sum of the counters;
they are all 0 when the total is 0; and on the three-way tie the rendered
percentages sum to 99, showing the independent per-option rounding with no
renormalization to 100. -/
theorem poll_percentages_match_spec (opts : List PollOptionRow) :
    renderedPercentages opts = opts.map (fun o => specPercentage o.votes (sumVotes opts)) ∧
    (sumVotes opts = 0 → renderedPercentages opts = opts.map (fun _ => (0 : ℤ))) ∧
    (renderedPercentages threeWayTie).sum = 99 := by
  refine ⟨?_, ?_, ?_⟩
  · unfold renderedPercentages
    apply List.map_congr_left
    intro o _
    unfold optionPercentage specPercentage
    by_cases h : 0 < sumVotes opts
    · rw [if_pos h, if_pos h, round_eq]
      rfl
    · rw [if_neg h, if_neg h]
  · intro h0
    unfold renderedPercentages
    apply List.map_congr_left
    intro o _
    unfold optionPercentage
    rw [if_neg]
    omega
  · norm_num [renderedPercentages, threeWayTie, sumVotes, optionPercentage, jsMathRound]

/-- A two-option poll with no votes yet, for the zero-total case. -/
def zeroVoteOpts : List PollOptionRow :=
  [{ id := 4, pollId := 12, text := "x", votes := 0 },
   { id := 5, pollId := 12, text := "y", votes := 0 }]

/-- Witness for C8: on the voteless two-option poll the rendered
percentages are 0 for every option. -/
theorem poll_percentages_match_spec_witness :
    renderedPercentages zeroVoteOpts = zeroVoteOpts.map (fun _ => (0 : ℤ)) :=
  (poll_percentages_match_spec zeroVoteOpts).2.1 (by rfl)

/-- The trim call of the forms, modelled on the character list: whitespace
is dropped from both ends. -/
def jsTrim (s : String) : String :=
  String.mk (((s.data.dropWhile (fun c => c.isWhitespace)).reverse.dropWhile
    (fun c => c.isWhitespace)).reverse)

/-- The addOption handler of CreatePollForm: append an empty option while
fewer than 5 are present, otherwise only show a toast. -/
def addOption (options : List String) : List String :=
  if options.length < 5 then options ++ [""] else options

/-- The removeOption handler of CreatePollForm: refuse when only 2 options
are left, otherwise drop the entry at the index, written with the same
index-based filter as the source. -/
def removeOption (options : List String) (index : Nat) : List String :=
  if options.length ≤ 2 then options
  else ((List.enum options).filter (fun p => !(p.1 == index))).map (fun p => p.2)

/-- The handleOptionChange handler of CreatePollForm: overwrite the entry
at the index; the form only raises it for rendered indices, which are in
range. -/
def handleOptionChange (options : List String) (index : Nat) (value : String) :
    List String :=
  options.set index value

/-- One user interaction with the option list of the form. -/
inductive FormEdit
  | add
  | remove (index : Nat)
  | change (index : Nat) (value : String)

/-- Apply one form interaction to the option list. -/
def applyFormEdit (options : List String) : FormEdit → List String
  | FormEdit.add => addOption options
  | FormEdit.remove i => removeOption options i
  | FormEdit.change i v => handleOptionChange options i v

/-- The option list the form starts from: two empty fields. -/
def initialOptions : List String := ["", ""]

/-- The option list after any sequence of form interactions. -/
def formOptions (edits : List FormEdit) : List String :=
  edits.foldl applyFormEdit initialOptions

theorem enumFrom_filter_idx_of_lt (l : List String) (n i : Nat) (h : i < n) :
    (List.enumFrom n l).filter (fun p => !(p.1 == i)) = List.enumFrom n l := by
  induction l generalizing n with
  | nil => simp [List.enumFrom]
  | cons a t ih =>
    have hne : (n == i) = false := by
      simp only [beq_eq_false_iff_ne, ne_eq]
      omega
    simp only [List.enumFrom, List.filter_cons, hne, Bool.not_false, if_pos]
    rw [ih (n + 1) (by omega)]

theorem enumFrom_filter_idx_length_ge (l : List String) (n i : Nat) :
    l.length - 1 ≤ ((List.enumFrom n l).filter (fun p => !(p.1 == i))).length := by
  induction l generalizing n with
  | nil => simp [List.enumFrom]
  | cons a t ih =>
    by_cases h : n = i
    · have hbe : (n == i) = true := by simpa using h
      simp [List.enumFrom, List.filter_cons, hbe,
        enumFrom_filter_idx_of_lt t (n + 1) i (by omega)]
    · have hbe : (n == i) = false := by simpa using h
      have ih2 := ih (n + 1)
      simp only [List.enumFrom, List.filter_cons, hbe, Bool.not_false, if_true,
        List.length_cons]
      omega

theorem applyFormEdit_length_bounds (l : List String) (e : FormEdit)
    (h2 : 2 ≤ l.length) (h5 : l.length ≤ 5) :
    2 ≤ (applyFormEdit l e).length ∧ (applyFormEdit l e).length ≤ 5 := by
  cases e with
  | add =>
    show 2 ≤ (addOption l).length ∧ (addOption l).length ≤ 5
    unfold addOption
    by_cases h : l.length < 5
    · rw [if_pos h]
      simp only [List.length_append, List.length_cons, List.length_nil]
      omega
    · rw [if_neg h]
      exact ⟨h2, h5⟩
  | remove i =>
    show 2 ≤ (removeOption l i).length ∧ (removeOption l i).length ≤ 5
    unfold removeOption
    by_cases h : l.length ≤ 2
    · rw [if_pos h]
      exact ⟨h2, h5⟩
    · rw [if_neg h]
      have hub : (((List.enum l).filter (fun p => !(p.1 == i))).map
          (fun p => p.2)).length ≤ l.length := by
        rw [List.length_map]
        calc ((List.enum l).filter (fun p => !(p.1 == i))).length
            ≤ (List.enum l).length := List.length_filter_le _ _
          _ = l.length := by simp
      have hlb : l.length - 1 ≤ (((List.enum l).filter (fun p => !(p.1 == i))).map
          (fun p => p.2)).length := by
        rw [List.length_map]
        simpa [List.enum] using enumFrom_filter_idx_length_ge l 0 i
      constructor <;> omega
  | change i v =>
    show 2 ≤ (handleOptionChange l i v).length ∧ (handleOptionChange l i v).length ≤ 5
    unfold handleOptionChange
    rw [List.length_set]
    exact ⟨h2, h5⟩

theorem foldl_formEdit_bounds (edits : List FormEdit) : ∀ l : List String,
    2 ≤ l.length → l.length ≤ 5 →
    2 ≤ (edits.foldl applyFormEdit l).length ∧ (edits.foldl applyFormEdit l).length ≤ 5 := by
  induction edits with
  | nil => intro l h2 h5; exact ⟨h2, h5⟩
  | cons e rest ih =>
    intro l h2 h5
    rw [List.foldl_cons]
    have hb := applyFormEdit_length_bounds l e h2 h5
    exact ih (applyFormEdit l e) hb.1 hb.2

/-- The option list of the form always carries between 2 and 5 entries,
whatever interactions the user performs. -/
theorem formOptions_length_bounds (edits : List FormEdit) :
    2 ≤ (formOptions edits).length ∧ (formOptions edits).length ≤ 5 :=
  foldl_formEdit_bounds edits initialOptions (by simp [initialOptions]) (by simp [initialOptions])

/-- The three inserts of the submit handler of CreatePollForm, in source
order. -/
inductive PollSubmitStep
  | insertPoll
  | insertFeedbackComment
  | insertOptions
  deriving DecidableEq, Repr

/-- The handleSubmit handler of CreatePollForm.  After the guards it
inserts the poll row first, then the optional AI-feedback comment, then the
option rows, each insert awaited and its error checked, so a later insert
failing leaves the earlier rows in place.  The ids the persistence service
generates are supplied as newPollId, newCommentId and consecutive option
ids from optionIdBase. -/
def handleSubmitPoll (user : Option Nat) (question : String) (options : List String)
    (aiFeedback : String) (newPollId newCommentId optionIdBase : Nat)
    (faults : PollSubmitStep → Bool) (db : DB) : DB × Bool :=
  match user with
  | none => (db, false)
  | some uid =>
    if jsTrim question == "" then (db, false)
    else if options.any (fun o => jsTrim o == "") then (db, false)
    else if faults PollSubmitStep.insertPoll then (db, false)
    else
      let db1 := { db with polls := db.polls ++
        [{ id := newPollId, question := jsTrim question, authorId := uid, totalVotes := 0 }] }
      if aiFeedback != "" && faults PollSubmitStep.insertFeedbackComment then (db1, false)
      else
        let db2 := if aiFeedback != "" then
            { db1 with comments := db1.comments ++
              [{ id := newCommentId, content := aiFeedback, authorId := uid,
                 postId := none, pollId := some newPollId }] }
          else db1
        if faults PollSubmitStep.insertOptions then (db2, false)
        else
          ({ db2 with pollOptions := db2.pollOptions ++
              (List.enum options).map (fun p =>
                { id := optionIdBase + p.1, pollId := newPollId, text := jsTrim p.2,
                  votes := 0 }) }, true)

/-- An empty database holding only the profile and account of user 3. -/
def dbNoPoll : DB where
  profiles := [{ id := 3, username := "maker" }]
  posts := []
  polls := []
  pollOptions := []
  userVotes := []
  comments := []
  postLikes := []
  authUsers := [3]

/-- The fault function that fails the options insert only. -/
def failOptionsInsert : PollSubmitStep → Bool :=
  fun s => decide (s = PollSubmitStep.insertOptions)

/-- C9 fails on the code in its atomicity part: the submit handler inserts
the poll row first and the option rows afterwords in a separate request, so
when the options insert fails the run ends in a state where the poll row
with id 42 exists and no poll_options row references it. -/
theorem poll_creation_not_atomic :
    (handleSubmitPoll (some 3) "pick one" ["a", "b"] "" 42 70 100 failOptionsInsert
      dbNoPoll).2 = false ∧
    ((handleSubmitPoll (some 3) "pick one" ["a", "b"] "" 42 70 100 failOptionsInsert
      dbNoPoll).1.polls.filter (fun p => p.id == 42)).length = 1 ∧
    ((handleSubmitPoll (some 3) "pick one" ["a", "b"] "" 42 70 100 failOptionsInsert
      dbNoPoll).1.pollOptions.filter (fun o => o.pollId == 42)).length = 0 := by
  decide

/-- The fault-free behaviour of the persistence service during poll
creation. -/
def noSubmitFaults : PollSubmitStep → Bool := fun _ => false

/-- C9 amended: the form always submits between 2 and 5 options, and on a
fault-free run poll creation succeeds, produces the poll row together with
one poll_options row per submitted option, between 2 and 5 of them; the
two inserts are however separate requests, not one atomic unit. -/
theorem poll_creation_two_to_five_options (edits : List FormEdit) (db : DB)
    (uid newPollId newCommentId optionIdBase : Nat) (question aiFeedback : String)
    (hq : (jsTrim question == "") = false)
    (hfill : ∀ o ∈ formOptions edits, (jsTrim o == "") = false)
    (hfresh : ∀ o ∈ db.pollOptions, (o.pollId == newPollId) = false) :
    (handleSubmitPoll (some uid) question (formOptions edits) aiFeedback newPollId
      newCommentId optionIdBase noSubmitFaults db).2 = true ∧
    (∃ p ∈ (handleSubmitPoll (some uid) question (formOptions edits) aiFeedback newPollId
      newCommentId optionIdBase noSubmitFaults db).1.polls, p.id = newPollId) ∧
    2 ≤ ((handleSubmitPoll (some uid) question (formOptions edits) aiFeedback newPollId
      newCommentId optionIdBase noSubmitFaults db).1.pollOptions.filter
        (fun o => o.pollId == newPollId)).length ∧
    ((handleSubmitPoll (some uid) question (formOptions edits) aiFeedback newPollId
      newCommentId optionIdBase noSubmitFaults db).1.pollOptions.filter
        (fun o => o.pollId == newPollId)).length ≤ 5 := by
  have hany : (formOptions edits).any (fun o => jsTrim o == "") = false := by
    rw [List.any_eq_false]
    intro o ho
    simp [hfill o ho]
  have hopts : (handleSubmitPoll (some uid) question (formOptions edits) aiFeedback
      newPollId newCommentId optionIdBase noSubmitFaults db).1.pollOptions
      = db.pollOptions ++ (List.enum (formOptions edits)).map (fun p =>
          ({ id := optionIdBase + p.1, pollId := newPollId, text := jsTrim p.2,
             votes := 0 } : PollOptionRow)) := by
    simp only [handleSubmitPoll, noSubmitFaults, hq, hany]
    by_cases hfb : aiFeedback != "" <;> simp [hfb]
  have hpolls : (handleSubmitPoll (some uid) question (formOptions edits) aiFeedback
      newPollId newCommentId optionIdBase noSubmitFaults db).1.polls
      = db.polls ++ [⟨newPollId, jsTrim question, uid, 0⟩] := by
    simp only [handleSubmitPoll, noSubmitFaults, hq, hany]
    by_cases hfb : aiFeedback != "" <;> simp [hfb]
  have hnil : db.pollOptions.filter (fun o => o.pollId == newPollId) = [] := by
    rw [List.filter_eq_nil_iff]
    intro o ho
    simp [hfresh o ho]
  have hself : ((List.enum (formOptions edits)).map (fun p =>
      ({ id := optionIdBase + p.1, pollId := newPollId, text := jsTrim p.2,
         votes := 0 } : PollOptionRow))).filter (fun o => o.pollId == newPollId)
      = (List.enum (formOptions edits)).map (fun p =>
          ({ id := optionIdBase + p.1, pollId := newPollId, text := jsTrim p.2,
             votes := 0 } : PollOptionRow)) := by
    rw [List.filter_eq_self]
    intro o ho
    simp only [List.mem_map] at ho
    obtain ⟨a, ha, rfl⟩ := ho
    simp
  have hcount : ((handleSubmitPoll (some uid) question (formOptions edits) aiFeedback
      newPollId newCommentId optionIdBase noSubmitFaults db).1.pollOptions.filter
        (fun o => o.pollId == newPollId)).length = (formOptions edits).length := by
    rw [hopts, List.filter_append, hnil, hself]
    simp
  refine ⟨?_, ?_, ?_, ?_⟩
  · simp [handleSubmitPoll, noSubmitFaults, hq, hany]
  · refine ⟨⟨newPollId, jsTrim question, uid, 0⟩, ?_, rfl⟩
    rw [hpolls]
    simp
  · rw [hcount]
    exact (formOptions_length_bounds edits).1
  · rw [hcount]
    exact (formOptions_length_bounds edits).2

/-- The form interactions that fill the two initial fields. -/
def witnessEdits : List FormEdit :=
  [FormEdit.change 0 "a", FormEdit.change 1 "b"]

/-- Witness for the amended C9: filling the two fields and submitting on
the empty database succeeds with exactly its 2 options attached to poll
42. -/
theorem poll_creation_two_to_five_options_witness :
    2 ≤ ((handleSubmitPoll (some 3) "pick one" (formOptions witnessEdits) "" 42 70 100
      noSubmitFaults dbNoPoll).1.pollOptions.filter (fun o => o.pollId == 42)).length ∧
    ((handleSubmitPoll (some 3) "pick one" (formOptions witnessEdits) "" 42 70 100
      noSubmitFaults dbNoPoll).1.pollOptions.filter (fun o => o.pollId == 42)).length ≤ 5 :=
  ⟨(poll_creation_two_to_five_options witnessEdits dbNoPoll 3 42 70 100 "pick one" ""
      (by decide) (by decide) (by decide)).2.2.1,
   (poll_creation_two_to_five_options witnessEdits dbNoPoll 3 42 70 100 "pick one" ""
      (by decide) (by decide) (by decide)).2.2.2⟩

/-- The handleDeleteComment handler of CommentSection.  Without a session
it returns at once; with one it issues a single delete filtered by both the
comment id and the author id of the caller, so the persistence service
removes exactly the rows matching both, reports no error when nothing
matches, and the handler shows its success toast either way. -/
def handleDeleteComment (user : Option Nat) (commentId : Nat) (db : DB) : DB × Bool :=
  match user with
  | none => (db, false)
  | some uid =>
    ({ db with comments :=
        db.comments.filter (fun c => !(c.id == commentId && c.authorId == uid)) }, true)

/-- C10: comment deletion is scoped to the author.  A call without a
session changes nothing; an authenticated call always reports success; the
rows removed are exactly those carrying both the requested id and the
caller as author; and when the caller is not the author of the comment in
question the database is left unchanged, a silent no-op. -/
theorem comment_deletion_author_scoped (db : DB) (uid cid : Nat)
    (h : ∀ c ∈ db.comments, c.id = cid → c.authorId ≠ uid) :
    handleDeleteComment none cid db = (db, false) ∧
    (handleDeleteComment (some uid) cid db).2 = true ∧
    (∀ (db2 : DB) (u2 c2 : Nat) (c : CommentRow),
      (c ∈ (handleDeleteComment (some u2) c2 db2).1.comments ↔
        c ∈ db2.comments ∧ ¬(c.id = c2 ∧ c.authorId = u2))) ∧
    (handleDeleteComment (some uid) cid db).1 = db := by
  refine ⟨rfl, rfl, ?_, ?_⟩
  · intro db2 u2 c2 c
    simp only [handleDeleteComment, List.mem_filter]
    constructor
    · rintro ⟨hm, hb⟩
      refine ⟨hm, ?_⟩
      rintro ⟨h1, h2⟩
      simp [h1, h2] at hb
    · rintro ⟨hm, hn⟩
      refine ⟨hm, ?_⟩
      by_cases h1 : c.id = c2
      · by_cases h2 : c.authorId = u2
        · exact absurd ⟨h1, h2⟩ hn
        · simp [h2]
      · simp [h1]
  · have hkeep : db.comments.filter (fun c => !(c.id == cid && c.authorId == uid))
        = db.comments := by
      rw [List.filter_eq_self]
      intro c hc
      by_cases h1 : c.id = cid
      · have h2 := h c hc h1
        simp [h2]
      · simp [h1]
    simp only [handleDeleteComment]
    rw [hkeep]

/-- A database whose only comment was written by user 2. -/
def dbOthersComment : DB where
  profiles := [{ id := 2, username := "two" }, { id := 3, username := "three" }]
  posts := []
  polls := []
  pollOptions := []
  userVotes := []
  comments := [{ id := 80, content := "mine", authorId := 2, postId := some 1,
                 pollId := none }]
  postLikes := []
  authUsers := [2, 3]

/-- Witness for C10: user 3 deleting the comment of user 2 reports success
and removes nothing. -/
theorem comment_deletion_author_scoped_witness :
    (handleDeleteComment (some 3) 80 dbOthersComment).2 = true ∧
    (handleDeleteComment (some 3) 80 dbOthersComment).1 = dbOthersComment :=
  ⟨(comment_deletion_author_scoped dbOthersComment 3 80 (by decide)).2.1,
   (comment_deletion_author_scoped dbOthersComment 3 80 (by decide)).2.2.2⟩

/-- Witness for C4: the fault-free deletion of poll 1 by its author starts
exactly the four steps in order. -/
theorem poll_deletion_steps_in_order_witness :
    (handleDelete (some (7 : Nat)) ⟨1, "best colour", 7, 0⟩ (fun _ => false)
      dbFreshPoll).2.1 = pollDeletionOrder :=
  (poll_deletion_steps_in_order dbFreshPoll ⟨1, "best colour", 7, 0⟩ (fun _ => false)).1

/-- Witness for the amended C5: the fault-free run on dbAccount reports the
negation of the auth-step fault flag. -/
theorem account_deletion_failure_checked_only_at_auth_step_witness :
    (handleDeleteAccount (some 1) "delete my account" noAccFaults dbAccount).2.2
      = !(noAccFaults AccStep.authRecord) :=
  (account_deletion_failure_checked_only_at_auth_step dbAccount 1 noAccFaults).1

/-- Witness for C6: after the fault-free account deletion on dbAccount the
authentication record of user 1 is gone. -/
theorem account_deletion_no_user_row_remains_witness :
    1 ∉ (accountDeletionRun dbAccount 1).authUsers :=
  (account_deletion_no_user_row_remains dbAccount 1).2.2.2.2.2.2.2

/-- Witness for C7: rerunning the full deletion of poll 1 on the state the
first run left behind reaches the same state. -/
theorem poll_deletion_idempotent_witness :
    pollDeletionRun (applyPollSteps (pollDeletionOrder.take 4) dbVoted 1) 1
      = pollDeletionRun dbVoted 1 :=
  (poll_deletion_idempotent dbVoted ⟨1, "best colour", 7, 0⟩ 4).2.1
